import Mathlib

/-!
Verification development for the Kaleidoscope front end
(src/lexer.py, src/parser.py, src/codegen.py).

The Python source is shallowly embedded: the lexer becomes a state-passing
function over an explicit character list, the parser becomes fueled
state-passing functions over the stream of tokens the lexer produces, and
the lowering pass (codegen) becomes a state-passing function over an
explicit IR-module state.  Python floats are modelled as exact rationals
(every numeric literal in the claims is exactly representable), and Python
exceptions become `Except` error values.
-/

namespace Kaleidoscope

/-- Decidable equality for `Except` results, so concrete runs of the
embedded functions can be checked by `decide`. -/
instance {ε α : Type} [DecidableEq ε] [DecidableEq α] : DecidableEq (Except ε α) := fun a b =>
  match a, b with
  | Except.ok x, Except.ok y =>
    if h : x = y then isTrue (by rw [h]) else isFalse (by intro hc; cases hc; exact h rfl)
  | Except.error x, Except.error y =>
    if h : x = y then isTrue (by rw [h]) else isFalse (by intro hc; cases hc; exact h rfl)
  | Except.ok _, Except.error _ => isFalse (by intro hc; cases hc)
  | Except.error _, Except.ok _ => isFalse (by intro hc; cases hc)

/-! ## Lexer (src/lexer.py) -/

/-- Token kinds, mirroring `TokenType` in lexer.py
(EOF, DEF, EXTERN, IDENTIFIER, NUMBER, OP).  The keyword constructors are
spelled `defKw` / `externKw` here because `def` is reserved in Lean. -/
inductive TokenType where
  | eof
  | defKw
  | externKw
  | identifier
  | number
  | op
deriving DecidableEq

/-- Tokens, mirroring class `Token` in lexer.py.  IDENTIFIER / NUMBER / OP
carry a payload (`kwargs["value"]`); the other kinds carry none (their
Python `value` is the enum member name, see `Token.valueStr`). -/
inductive Token where
  | eof
  | defKw
  | externKw
  | identifier (value : String)
  | number (value : ℚ)
  | op (value : Char)
deriving DecidableEq

def Token.type : Token → TokenType
  | .eof => .eof
  | .defKw => .defKw
  | .externKw => .externKw
  | .identifier _ => .identifier
  | .number _ => .number
  | .op _ => .op

/-- The Python `token.value` rendered as a string, used in error messages.
For EOF/DEF/EXTERN the Python value is the enum member name; NUMBER values
are floats (rendered here via the rational, message text only). -/
def Token.valueStr : Token → String
  | .eof => "EOF"
  | .defKw => "DEF"
  | .externKw => "EXTERN"
  | .identifier v => v
  | .number q => toString q
  | .op c => String.mk [c]

/-- Python `token.value == s` for a string literal `s`.  A NUMBER value is a
float and never equals a string; keyword/EOF tokens carry their enum member
name as value. -/
def Token.valueIsStr : Token → String → Bool
  | .eof, s => s == "EOF"
  | .defKw, s => s == "DEF"
  | .externKw, s => s == "EXTERN"
  | .identifier v, s => v == s
  | .number _, _ => false
  | .op c, s => s == String.mk [c]

/-- Python `str.isspace` restricted to the ASCII whitespace characters. -/
def pyIsSpace (c : Char) : Bool :=
  c == ' ' || c == '\t' || c == '\n' || c == '\r' || c == '\x0b' || c == '\x0c'

/-- Python `str.isalpha` (inputs here are ASCII). -/
def pyIsAlpha (c : Char) : Bool := c.isAlpha

/-- Python `str.isalnum` (inputs here are ASCII). -/
def pyIsAlnum (c : Char) : Bool := c.isAlpha || c.isDigit

/-- Python `str.isdigit` (inputs here are ASCII). -/
def pyIsDigit (c : Char) : Bool := c.isDigit

/-- Lexer state, mirroring class `Lexer`: the remaining character source
(`self.fp`), the one pending character `self.last_char` (`none` models the
empty string `""` that `fp.read(1)` returns at end of input), and
`self.current_token` (`none` models the initial Python `None`). -/
structure LexState where
  input : List Char
  lastChar : Option Char
  currentToken : Option Token
deriving DecidableEq

/-- `Lexer.__init__`: `last_char` is seeded with a space, `current_token`
is `None`. -/
def initLexer (src : String) : LexState :=
  { input := src.toList, lastChar := some ' ', currentToken := none }

/-- `self.fp.read(1)` assigned into `self.last_char` (also `Lexer._eat(1)`). -/
def read1 (s : LexState) : LexState :=
  match s.input with
  | [] => { s with lastChar := none }
  | c :: cs => { s with lastChar := some c, input := cs }

/-- Loop body of `Lexer._read_while`, structurally recursive on the
remaining source: accumulate the pending character while the predicate
holds, refilling from the source.  Returns (word, new pending character,
remaining source).  On the empty string (`cur = none`) every Python
predicate used by the lexer returns `False`, so the loop stops. -/
def readWhileAux (p : Char → Bool) (cur : Option Char) (inp : List Char) :
    List Char × Option Char × List Char :=
  match cur with
  | none => ([], none, inp)
  | some c =>
    if p c then
      match inp with
      | [] => ([c], none, [])
      | d :: ds =>
        let r := readWhileAux p (some d) ds
        (c :: r.1, r.2)
    else ([], some c, inp)

/-- `Lexer._read_while(predicate)` acting on the lexer state. -/
def readWhile (p : Char → Bool) (s : LexState) : List Char × LexState :=
  let r := readWhileAux p s.lastChar s.input
  (r.1, { s with lastChar := r.2.1, input := r.2.2 })

/-- The value Python's `float` produces on the words the number branch
builds (`digits* ('.' digits*)?`), as an exact rational; `none` models the
`ValueError` raised on a word with no digits (only `"."` is reachable). -/
def pyFloat (w : List Char) : Option ℚ :=
  let ip := w.takeWhile Char.isDigit
  let rest := w.dropWhile Char.isDigit
  let digitsNat : List Char → ℕ := fun l => l.foldl (fun a c => a * 10 + (c.toNat - 48)) 0
  match rest with
  | [] => if ip.isEmpty then none else some (mkRat (digitsNat ip) 1)
  | '.' :: fp =>
    if fp.all Char.isDigit then
      if ip.isEmpty && fp.isEmpty then none
      else some (mkRat (digitsNat ip * 10 ^ fp.length + digitsNat fp) (10 ^ fp.length))
    else none
  | _ => none

/-- `Lexer.next_token`, transcribed branch by branch from lexer.py lines
43-73.  The returned value is `self.current_token` as returned by the
Python method: note that the comment branch does NOT assign
`self.current_token`, so it returns the previous (stale) token, or `none`
if no token was ever produced.  The `Except` error models the `ValueError`
that `float` raises on a digit-free word (classified as a LexError). -/
def nextToken (s : LexState) : LexState × Except String (Option Token) :=
  let s0 := (readWhile pyIsSpace s).2
  match s0.lastChar with
  | some c =>
    if pyIsAlpha c then
      -- identifier or def or extern
      let r := readWhile pyIsAlnum s0
      let word := String.mk r.1
      let tok := if word == "def" then Token.defKw
                 else if word == "extern" then Token.externKw
                 else Token.identifier word
      ({ r.2 with currentToken := some tok }, Except.ok (some tok))
    else if pyIsDigit c || c == '.' then
      -- number
      let r1 := readWhile pyIsDigit s0
      if r1.2.lastChar == some '.' then
        let s2 := read1 r1.2
        let r2 := readWhile pyIsDigit s2
        let w := r1.1 ++ '.' :: r2.1
        match pyFloat w with
        | some q =>
          let tok := Token.number q
          ({ r2.2 with currentToken := some tok }, Except.ok (some tok))
        | none => (r2.2, Except.error ("could not convert string to float: " ++ String.mk w))
      else
        match pyFloat r1.1 with
        | some q =>
          let tok := Token.number q
          ({ r1.2 with currentToken := some tok }, Except.ok (some tok))
        | none => (r1.2, Except.error ("could not convert string to float: " ++ String.mk r1.1))
    else if c == '#' then
      -- comment until eof or eol; current_token is NOT updated
      let s1 := (readWhile (fun ch => !(ch == '\n' || ch == '\r')) s0).2
      let s2 := read1 s1
      (s2, Except.ok s2.currentToken)
    else
      let tok := Token.op c
      let s1 := read1 { s0 with currentToken := some tok }
      (s1, Except.ok (some tok))
  | none =>
    -- EOF (last_char == "")
    let tok := Token.eof
    ({ s0 with currentToken := some tok }, Except.ok (some tok))

/-- The stream of values returned by successive `next_token` calls, up to
and including the first EndOfInput token.  The lexer's evolution does not
depend on its caller, so this precomputed stream is exactly what the
parser's pull-based `next_token` calls observe.  `fuel` is a modeling
artifact: every call before EOF consumes at least one source character, so
`input.length + 2` calls always suffice. -/
def lexAll (fuel : Nat) (s : LexState) : Except String (List (Option Token)) :=
  match fuel with
  | 0 => Except.error "lexAll: out of fuel"
  | fuel + 1 =>
    match nextToken s with
    | (_, Except.error e) => Except.error e
    | (s', Except.ok t) =>
      if t = some Token.eof then Except.ok [t]
      else
        match lexAll fuel s' with
        | Except.error e => Except.error e
        | Except.ok ts => Except.ok (t :: ts)

/-- Token stream of a whole source string. -/
def streamOf (src : String) : Except String (List (Option Token)) :=
  lexAll (src.length + 2) (initLexer src)

/-! ## Syntax tree model (src/parser.py classes) -/

/-- Expressions, mirroring the `Expr` subclasses of parser.py:
`NumebrExpr` [sic], `VariableExpr`, `BinaryOpExpr`, `CallExpr`.  The
binary operator is the one-character string Python stores in `op`. -/
inductive Expr where
  | NumebrExpr (value : ℚ)
  | VariableExpr (varName : String)
  | BinaryOpExpr (op : Char) (lhs : Expr) (rhs : Expr)
  | CallExpr (callee : String) (args : List Expr)

/-- Class `Prototype` of parser.py. -/
structure Prototype where
  name : String
  args : List String
deriving DecidableEq

/-- Class `Function` of parser.py (a prototype plus a body expression). -/
structure Function where
  proto : Prototype
  body : Expr

/-! ## Parser (src/parser.py class Parser)

The parser holds one lookahead token (`self.cur_tok`, which is
`self.lexer.current_token`) and pulls tokens with `self.next_token()`.
Because the lexer's evolution does not depend on the parser, the sequence
of `current_token` values the lexer will produce is precomputed
(`streamOf`) and the parser state is the unconsumed remainder of that
sequence plus the current token.  A stream entry is an `Option Token`
because a `next_token` call that consumed only a comment leaves
`current_token` unchanged — in particular `None` if no token was ever
produced.  After the stream is exhausted the lexer keeps returning
EndOfInput, which `nextTok` models directly.

Errors: `parseError` is `ParseError`; `lexError` is the lexer's
`ValueError`; `attributeMissing` models the Python `AttributeError` raised
when `.type`/`.value` is read on `None`; `outOfFuel` is a modeling
artifact only — every loop and recursion of the Python parser consumes at
least one token per cycle, so any fuel larger than the stream length
behaves identically to the Python code. -/

inductive Err where
  | parseError (msg : String)
  | lexError (msg : String)
  | attributeMissing (attr : String)
  | outOfFuel
deriving DecidableEq

/-- Parser state: the remaining precomputed token stream plus
`self.cur_tok`. -/
structure PState where
  stream : List (Option Token)
  cur : Option Token
deriving DecidableEq

/-- `Parser.next_token`: pull the next `current_token` value from the
lexer.  Past the end of the precomputed stream the lexer keeps returning
EndOfInput (see `lexAll`). -/
def nextTok (s : PState) : PState :=
  match s.stream with
  | [] => { stream := [], cur := some Token.eof }
  | t :: ts => { stream := ts, cur := t }

/-- `Parser.binop_precedence` (a Python dict). -/
def binopPrecedence (c : Char) : Option Int :=
  if c == '<' then some 10
  else if c == '+' then some 20
  else if c == '-' then some 30
  else if c == '*' then some 40
  else none

/-- `Parser.cur_tok_precedence`: `-1` for anything that is not an operator
present in the table.  Reading `.type` of a `None` current token raises
AttributeError. -/
def curTokPrecedence (s : PState) : Except Err Int :=
  match s.cur with
  | none => Except.error (Err.attributeMissing "type")
  | some (Token.op c) =>
    match binopPrecedence c with
    | some p => Except.ok p
    | none => Except.ok (-1)
  | some _ => Except.ok (-1)

mutual

/-- `Parser._parse_primary`.  The NUMBER case inlines
`Parser._parse_numberexpr` (build a `NumebrExpr` from the token value and
eat the token). -/
def parsePrimary (fuel : Nat) (s : PState) : Except Err (Expr × PState) :=
  match fuel with
  | 0 => Except.error Err.outOfFuel
  | fuel + 1 =>
    match s.cur with
    | none => Except.error (Err.attributeMissing "type")
    | some (Token.number q) => Except.ok (Expr.NumebrExpr q, nextTok s)
    | some (Token.identifier _) => parseIdentifierExpr fuel s
    | some (Token.op '(') => parseParenexpr fuel s
    | some t =>
      Except.error (Err.parseError ("Got unexpected token " ++ t.valueStr ++ " in expresison"))

/-- `Parser._parse_parenexpr`: eat `(`, parse an expression, require `)`. -/
def parseParenexpr (fuel : Nat) (s : PState) : Except Err (Expr × PState) :=
  match fuel with
  | 0 => Except.error Err.outOfFuel
  | fuel + 1 =>
    let s1 := nextTok s  -- eat (
    match parseExpr fuel s1 with
    | Except.error e => Except.error e
    | Except.ok (e, s2) =>
      match s2.cur with
      | none => Except.error (Err.attributeMissing "type")
      | some t =>
        if t.type != TokenType.op || !(t.valueIsStr ")") then
          Except.error (Err.parseError ("Expected ), got " ++ t.valueStr))
        else Except.ok (e, nextTok s2)  -- eat )

/-- `Parser._parse_identifier_expr`: a bare identifier is a `VariableExpr`;
an identifier followed by `(` is a `CallExpr` with comma-separated
argument expressions.  This function is only invoked by `_parse_primary`
on an IDENTIFIER current token. -/
def parseIdentifierExpr (fuel : Nat) (s : PState) : Except Err (Expr × PState) :=
  match fuel with
  | 0 => Except.error Err.outOfFuel
  | fuel + 1 =>
    match s.cur with
    | some (Token.identifier idName) =>
      let s1 := nextTok s  -- eat identifier name
      match s1.cur with
      | none => Except.error (Err.attributeMissing "value")
      | some t1 =>
        if !(t1.valueIsStr "(") then Except.ok (Expr.VariableExpr idName, s1)
        else
          let s2 := nextTok s1  -- eat (
          match s2.cur with
          | none => Except.error (Err.attributeMissing "value")
          | some t2 =>
            if t2.valueIsStr ")" then Except.ok (Expr.CallExpr idName [], nextTok s2)  -- eat )
            else parseCallArgs fuel idName [] s2
    | _ => Except.error (Err.parseError "unreachable: _parse_identifier_expr on a non-identifier")

/-- The `while True` argument loop of `Parser._parse_identifier_expr`:
parse an argument, then require `)` (stop, eat it, build the `CallExpr`)
or `,` (eat it and continue). -/
def parseCallArgs (fuel : Nat) (idName : String) (acc : List Expr) (s : PState) :
    Except Err (Expr × PState) :=
  match fuel with
  | 0 => Except.error Err.outOfFuel
  | fuel + 1 =>
    match parseExpr fuel s with
    | Except.error e => Except.error e
    | Except.ok (arg, s1) =>
      let args := acc ++ [arg]
      match s1.cur with
      | none => Except.error (Err.attributeMissing "value")
      | some t =>
        if t.valueIsStr ")" then Except.ok (Expr.CallExpr idName args, nextTok s1)  -- eat )
        else if !(t.valueIsStr ",") then
          Except.error (Err.parseError ("Expected , or ) but got " ++ t.valueStr))
        else parseCallArgs fuel idName args (nextTok s1)  -- eat ,

/-- `Parser._parse_bin_op_rhs`: iterative precedence climbing.  The
`while True` loop becomes tail recursion; both the loop continuation and
the higher-precedence recursion are the same function.  The final
catch-all arm is unreachable for the call pattern the source uses
(`min_precedence` is `0` or `op_precedence + 1`, both nonnegative, so a
precedence `>= min_precedence` implies an operator token from the table). -/
def parseBinOpRhs (fuel : Nat) (lhs : Expr) (minPrecedence : Int) (s : PState) :
    Except Err (Expr × PState) :=
  match fuel with
  | 0 => Except.error Err.outOfFuel
  | fuel + 1 =>
    match curTokPrecedence s with
    | Except.error e => Except.error e
    | Except.ok opPrecedence =>
      if opPrecedence < minPrecedence then Except.ok (lhs, s)
      else
        match s.cur with
        | some (Token.op binOp) =>
          let s1 := nextTok s  -- eat bin_op
          match parsePrimary fuel s1 with
          | Except.error e => Except.error e
          | Except.ok (rhs, s2) =>
            match curTokPrecedence s2 with
            | Except.error e => Except.error e
            | Except.ok nextPrecedence =>
              if opPrecedence < nextPrecedence then
                match parseBinOpRhs fuel rhs (opPrecedence + 1) s2 with
                | Except.error e => Except.error e
                | Except.ok (rhs2, s3) =>
                  parseBinOpRhs fuel (Expr.BinaryOpExpr binOp lhs rhs2) minPrecedence s3
              else
                parseBinOpRhs fuel (Expr.BinaryOpExpr binOp lhs rhs) minPrecedence s2
        | _ => Except.error (Err.parseError "unreachable: nonnegative precedence on a non-operator")

/-- `Parser._parse_expr`: a primary followed by the binary-operator loop
with minimum precedence 0. -/
def parseExpr (fuel : Nat) (s : PState) : Except Err (Expr × PState) :=
  match fuel with
  | 0 => Except.error Err.outOfFuel
  | fuel + 1 =>
    match parsePrimary fuel s with
    | Except.error e => Except.error e
    | Except.ok (lhs, s1) => parseBinOpRhs fuel lhs 0 s1

end

/-- The `while self.next_token().type == TokenType.IDENTIFIER` loop of
`Parser._parse_prototype`: each cycle pulls a token; an identifier is
appended and must be followed by `)` (break) or `,` (continue, the `,` is
consumed by the next cycle's `next_token()`); any other follower raises
ParseError.  A non-identifier pulled by the loop condition exits the loop.
Both exits leave `cur` on the token that ended the loop. -/
def protoLoop (fuel : Nat) (args : List String) (s : PState) :
    Except Err (List String × PState) :=
  match fuel with
  | 0 => Except.error Err.outOfFuel
  | fuel + 1 =>
    let s1 := nextTok s
    match s1.cur with
    | none => Except.error (Err.attributeMissing "type")
    | some (Token.identifier a) =>
      let s2 := nextTok s1
      match s2.cur with
      | none => Except.error (Err.attributeMissing "value")
      | some t =>
        if t.valueIsStr ")" then Except.ok (args ++ [a], s2)
        else if !(t.valueIsStr ",") then
          Except.error (Err.parseError (", expected, got " ++ t.valueStr))
        else protoLoop fuel (args ++ [a]) s2
    | some _ => Except.ok (args, s1)

/-- `Parser._parse_prototype`: `IDENTIFIER '(' ... ')'` where the
parameter list is read by `protoLoop`, followed by the mandatory `)`
check and its consumption. -/
def parsePrototype (fuel : Nat) (s : PState) : Except Err (Prototype × PState) :=
  match s.cur with
  | none => Except.error (Err.attributeMissing "type")
  | some (Token.identifier idName) =>
    let s1 := nextTok s  -- eat id_name
    match s1.cur with
    | none => Except.error (Err.attributeMissing "type")
    | some t1 =>
      if t1.type != TokenType.op || !(t1.valueIsStr "(") then
        Except.error (Err.parseError ("Expexted ( got " ++ t1.valueStr))
      else
        match protoLoop fuel [] s1 with
        | Except.error e => Except.error e
        | Except.ok (args, s2) =>
          match s2.cur with
          | none => Except.error (Err.attributeMissing "type")
          | some t2 =>
            if t2.type != TokenType.op || !(t2.valueIsStr ")") then
              Except.error (Err.parseError ("Expexted ) got " ++ t2.valueStr))
            else Except.ok (Prototype.mk idName args, nextTok s2)  -- eat )
  | some _ => Except.error (Err.parseError "Expected identifier in function prototype")

/-- `Parser._parse_definition`: eat `def`, parse a prototype, require `:`,
parse the body expression. -/
def parseDefinition (fuel : Nat) (s : PState) : Except Err (Function × PState) :=
  match fuel with
  | 0 => Except.error Err.outOfFuel
  | fuel + 1 =>
    let s1 := nextTok s  -- eat def
    match parsePrototype fuel s1 with
    | Except.error e => Except.error e
    | Except.ok (proto, s2) =>
      match s2.cur with
      | none => Except.error (Err.attributeMissing "value")
      | some t =>
        if !(t.valueIsStr ":") then
          Except.error (Err.parseError "Exprected : before function body")
        else
          match parseExpr fuel (nextTok s2) with
          | Except.error e => Except.error e
          | Except.ok (body, s3) => Except.ok (Function.mk proto body, s3)

/-- `Parser._parse_extern`: eat `extern`, parse a bare prototype. -/
def parseExtern (fuel : Nat) (s : PState) : Except Err (Prototype × PState) :=
  let s1 := nextTok s  -- eat extern
  parsePrototype fuel s1

/-- Lex a source string and parse it as a top-level expression, as the
driver loop does for a non-keyword first token: the driver's initial
`next_token()` primes `cur`, then `_parse_expr` runs.  Returns the
expression tree. -/
def runParseExpr (src : String) : Except Err Expr :=
  match streamOf src with
  | Except.error e => Except.error (Err.lexError e)
  | Except.ok stream =>
    match parseExpr (src.length + 10) (nextTok { stream := stream, cur := none }) with
    | Except.error e => Except.error e
    | Except.ok (e, _) => Except.ok e

/-- Lex a source string and parse it as a `def` definition, as the driver
loop does when the first token is DEF. -/
def runParseDefinition (src : String) : Except Err Function :=
  match streamOf src with
  | Except.error e => Except.error (Err.lexError e)
  | Except.ok stream =>
    match parseDefinition (src.length + 10) (nextTok { stream := stream, cur := none }) with
    | Except.error e => Except.error e
    | Except.ok (f, _) => Except.ok f

/-- Does a run of the embedded code end in a `ParseError`? -/
def isParseErr {α : Type} : Except Err α → Bool
  | Except.error (Err.parseError _) => true
  | _ => false

/-! ## Lowering pass (src/codegen.py class IRGenerator)

The llvmlite backend is modelled just deeply enough for what the code
reads and writes: a module is a list of IR functions; an IR function has a
name, a list of argument names (`arg.name`, set from the prototype that
created it) and a list of basic blocks, each a list of instructions.  An
IR value is a constant, a reference to the `i`-th argument of the `f`-th
module function, a numbered instruction result — or a `CodegenError`
object, because `generate` returns one (instead of raising) from its
invalid-binary-operator branch.  The `IRBuilder` is the `pos` field (the
block `position_at_end` selected) plus a counter for fresh instruction
results.

Errors: `undefinedVariable` and `redefinition` are the two `raise
CodegenError(...)` sites; `attributeMissing` models a Python
`AttributeError` (the unknown-callee branch evaluates `node.name` in its
f-string, but `CallExpr` has no attribute `name` — its fields are `callee`
and `args` — so Python raises AttributeError before the `return` runs);
`builderUnset` models llvmlite failing when the builder is used without a
position (never reached by lowering a whole `Function`).  On error the
Python module keeps any partial mutations; no claim observes that state,
so the embedding returns only the error. -/

/-- An IR value handle. -/
inductive GenVal where
  | const (x : ℚ)
  | argv (fnIdx : Nat) (argIdx : Nat)
  | instr (id : Nat)
  | errObj (msg : String)
deriving DecidableEq

/-- Is this "value" actually a returned `CodegenError` object? -/
def GenVal.isErrObj : GenVal → Bool
  | .errObj _ => true
  | _ => false

/-- Emitted IR instructions (`builder.fadd` / `fsub` / `fmul` /
`fcmp_unordered '<'` / `uitofp` / `call` / `ret`), each recording its
operands and, except for `ret`, its fresh result number. -/
inductive Instr where
  | fadd (l r : GenVal) (res : Nat)
  | fsub (l r : GenVal) (res : Nat)
  | fmul (l r : GenVal) (res : Nat)
  | fcmpULt (l r : GenVal) (res : Nat)
  | uitofp (v : GenVal) (res : Nat)
  | call (fnIdx : Nat) (args : List GenVal) (res : Nat)
  | ret (v : GenVal)
deriving DecidableEq

/-- An llvmlite IR function as the code uses it: `function.name`,
`function.args` (only the names matter — `arg.name` is what the code reads
and writes) and `function.blocks`. -/
structure IRFunc where
  name : String
  args : List String
  blocks : List (List Instr)
deriving DecidableEq

/-- `IRGenerator` state: `self.module.functions` plus the builder
position (`position_at_end`) and a fresh-result counter. -/
structure GenState where
  functions : List IRFunc
  pos : Option (Nat × Nat)
  nextId : Nat
deriving DecidableEq

/-- `IRGenerator.__init__`: empty module, unpositioned builder. -/
def initGen : GenState := { functions := [], pos := none, nextId := 0 }

/-- Lowering-pass errors (see the section comment). -/
inductive CodegenErr where
  | undefinedVariable (name : String)
  | redefinition (proto : Prototype)
  | attributeMissing (attr : String)
  | builderUnset
deriving DecidableEq

/-- `IRGenerator.search_functions`: scan `self.module.functions` in order
and return the first function whose name and argument count both match
(here: its index into the module's function list). -/
def searchFunctions (fns : List IRFunc) (name : String) (numArgs : Nat) : Option Nat :=
  (fns.enum.find? (fun p => p.2.name == name && p.2.args.length == numArgs)).map (fun p => p.1)

/-- The `lookup` dictionary mapping variable names to IR values, in
insertion order (a later binding for the same key wins, as in a Python
dict). -/
abbrev Lookup := List (String × GenVal)

/-- Python dict lookup over the insertion-order list: the latest binding
for the key wins. -/
def dictGet : Lookup → String → Option GenVal
  | [], _ => none
  | p :: rest, k =>
    match dictGet rest k with
    | some v => some v
    | none => if p.1 == k then some p.2 else none

/-- The dict comprehension of the `Function` branch,
`lookup_add = (arg.name -> arg) for arg in fn.args`, with the argument
values of the module function at index `fnIdx`. -/
def argLookup (fnIdx : Nat) : Nat → List String → Lookup
  | _, [] => []
  | i, a :: rest => (a, GenVal.argv fnIdx i) :: argLookup fnIdx (i + 1) rest

/-- Append one instruction at the builder's position and hand back its
fresh result value (the behavior of the `builder.f...` emitters). -/
def emitInstr (mk : Nat → Instr) (st : GenState) : Except CodegenErr (GenVal × GenState) :=
  match st.pos with
  | none => Except.error CodegenErr.builderUnset
  | some (fi, bi) =>
    match st.functions.get? fi with
    | none => Except.error CodegenErr.builderUnset
    | some fn =>
      match fn.blocks.get? bi with
      | none => Except.error CodegenErr.builderUnset
      | some blk =>
        let fn' := { fn with blocks := fn.blocks.set bi (blk ++ [mk st.nextId]) }
        Except.ok (GenVal.instr st.nextId,
          { st with functions := st.functions.set fi fn', nextId := st.nextId + 1 })

/-- `builder.ret(...)`: append the terminator at the builder's position. -/
def emitRet (v : GenVal) (st : GenState) : Except CodegenErr GenState :=
  match st.pos with
  | none => Except.error CodegenErr.builderUnset
  | some (fi, bi) =>
    match st.functions.get? fi with
    | none => Except.error CodegenErr.builderUnset
    | some fn =>
      match fn.blocks.get? bi with
      | none => Except.error CodegenErr.builderUnset
      | some blk =>
        let fn' := { fn with blocks := fn.blocks.set bi (blk ++ [Instr.ret v]) }
        Except.ok { st with functions := st.functions.set fi fn' }

mutual

/-- The expression branches of `IRGenerator.generate` (codegen.py lines
24-52), transcribed in source order: VariableExpr (dict lookup or raise),
NumebrExpr (constant), BinaryOpExpr (lower left then right, dispatch on
the operator; an unknown operator RETURNS a `CodegenError` object instead
of raising), CallExpr (resolve name+arity first — the not-found branch
raises AttributeError while formatting its message, see the section
comment — then lower the arguments left to right and emit the call). -/
def genExpr (e : Expr) (lookup : Lookup) (st : GenState) :
    Except CodegenErr (GenVal × GenState) :=
  match e with
  | Expr.VariableExpr name =>
    match dictGet lookup name with
    | some v => Except.ok (v, st)
    | none => Except.error (CodegenErr.undefinedVariable name)
  | Expr.NumebrExpr x => Except.ok (GenVal.const x, st)
  | Expr.BinaryOpExpr op l r =>
    match genExpr l lookup st with
    | Except.error e1 => Except.error e1
    | Except.ok (lv, st1) =>
      match genExpr r lookup st1 with
      | Except.error e2 => Except.error e2
      | Except.ok (rv, st2) =>
        if op == '+' then emitInstr (Instr.fadd lv rv) st2
        else if op == '-' then emitInstr (Instr.fsub lv rv) st2
        else if op == '<' then
          match emitInstr (Instr.fcmpULt lv rv) st2 with
          | Except.error e3 => Except.error e3
          | Except.ok (tmp, st3) => emitInstr (Instr.uitofp tmp) st3
        else if op == '*' then emitInstr (Instr.fmul lv rv) st2
        else Except.ok (GenVal.errObj ("Invalid binary operation " ++ String.mk [op]), st2)
  | Expr.CallExpr callee args =>
    match searchFunctions st.functions callee args.length with
    | none => Except.error (CodegenErr.attributeMissing "name")
    | some fi =>
      match genArgs args lookup st with
      | Except.error e1 => Except.error e1
      | Except.ok (vs, st1) => emitInstr (Instr.call fi vs) st1

/-- The `for arg in node.args` loop of the CallExpr branch: lower each
argument left to right, threading the module state. -/
def genArgs (es : List Expr) (lookup : Lookup) (st : GenState) :
    Except CodegenErr (List GenVal × GenState) :=
  match es with
  | [] => Except.ok ([], st)
  | e :: rest =>
    match genExpr e lookup st with
    | Except.error e1 => Except.error e1
    | Except.ok (v, st1) =>
      match genArgs rest lookup st1 with
      | Except.error e2 => Except.error e2
      | Except.ok (vs, st2) => Except.ok (v :: vs, st2)

end

/-- The Prototype branch of `IRGenerator.generate`: create a new module
function with one double parameter per declared name, external linkage,
and the prototype's names attached to the parameters.  (The `lookup`
parameter of `generate` is unused here, as in the source.)  Returns the
new function (here: its index). -/
def genProto (p : Prototype) (st : GenState) : Nat × GenState :=
  (st.functions.length,
   { st with functions :=
      st.functions ++ [{ name := p.name, args := p.args, blocks := [] }] })

/-- The Function branch of `IRGenerator.generate`: resolve the prototype's
name and arity in the module (creating the function only if absent — an
existing function keeps its previously declared parameter names); fail
with the redefinition `CodegenError` if the resolved function already has
a body (`len(fn.blocks) > 0`); otherwise append an entry block, position
the builder there, bind each of the RESOLVED function's parameter names in
the lookup dict, lower the body expression, and emit it as the return
value. -/
def genFunc (f : Function) (lookup : Lookup) (st : GenState) :
    Except CodegenErr (Nat × GenState) :=
  let found :=
    match searchFunctions st.functions f.proto.name f.proto.args.length with
    | some fi => (fi, st)
    | none => genProto f.proto st
  match found with
  | (fi, st1) =>
    match st1.functions.get? fi with
    | none => Except.error (CodegenErr.attributeMissing "blocks")
    | some fn =>
      if fn.blocks.length > 0 then Except.error (CodegenErr.redefinition f.proto)
      else
        let fn' := { fn with blocks := fn.blocks ++ [[]] }
        let st2 := { st1 with functions := st1.functions.set fi fn',
                              pos := some (fi, fn.blocks.length) }
        let lookupAdd := argLookup fi 0 fn.args
        match genExpr f.body (lookup ++ lookupAdd) st2 with
        | Except.error e => Except.error e
        | Except.ok (ret, st3) =>
          match emitRet ret st3 with
          | Except.error e => Except.error e
          | Except.ok st4 => Except.ok (fi, st4)

/-- The lowering entry point `IRGenerator.generate(node, lookup)`,
dispatching on the node class as the `isinstance` chain does.  (The
`isinstance` fallthrough that prints a diagnostic and returns `None` is
unreachable for the closed set of node classes modelled here.) -/
inductive Node where
  | expr (e : Expr)
  | proto (p : Prototype)
  | func (f : Function)

/-- Result of `generate`: an IR value for expression nodes, a module
function (its index) for Prototype/Function nodes. -/
inductive GenResult where
  | val (v : GenVal)
  | fnRef (idx : Nat)
deriving DecidableEq

/-- `IRGenerator.generate` (see `Node`). -/
def generate (node : Node) (lookup : Lookup) (st : GenState) :
    Except CodegenErr (GenResult × GenState) :=
  match node with
  | Node.expr e =>
    match genExpr e lookup st with
    | Except.error e1 => Except.error e1
    | Except.ok (v, st1) => Except.ok (GenResult.val v, st1)
  | Node.proto p =>
    match genProto p st with
    | (fi, st1) => Except.ok (GenResult.fnRef fi, st1)
  | Node.func f =>
    match genFunc f lookup st with
    | Except.error e1 => Except.error e1
    | Except.ok (fi, st1) => Except.ok (GenResult.fnRef fi, st1)

/-! ## The parser invariant on binary operators -/

mutual

/-- Every `BinaryOpExpr` in the tree carries an operator present in
`Parser.binop_precedence`. -/
def opsValid : Expr → Bool
  | Expr.NumebrExpr _ => true
  | Expr.VariableExpr _ => true
  | Expr.BinaryOpExpr op l r => (binopPrecedence op).isSome && opsValid l && opsValid r
  | Expr.CallExpr _ args => opsValidList args

/-- `opsValid` on every element of a list. -/
def opsValidList : List Expr → Bool
  | [] => true
  | e :: rest => opsValid e && opsValidList rest

end

/-- A lookup dict none of whose values is a returned `CodegenError`
object.  Every dict the lowering pass builds (parameter bindings) has this
property. -/
def lookupClean (l : Lookup) : Bool := l.all (fun p => !p.2.isErrObj)

/-! ## Helper lemmas -/

/-- `_read_while` never touches `current_token`. -/
theorem readWhile_currentToken (p : Char → Bool) (s : LexState) :
    ((readWhile p s).2).currentToken = s.currentToken := rfl

/-- Reading one character never touches `current_token`. -/
theorem read1_currentToken (s : LexState) : (read1 s).currentToken = s.currentToken := by
  cases h : s.input <;> simp [read1, h]

/-- With the pending character already exhausted, `_read_while` reads
nothing. -/
theorem readWhile_of_lastChar_none (p : Char → Bool) (s : LexState) (h : s.lastChar = none) :
    readWhile p s = ([], s) := by
  cases s with
  | mk input lastChar cur =>
    simp only at h
    subst h
    simp [readWhile, readWhileAux]

/-- With the pending character exhausted, `next_token` takes the EOF
branch: it stores and returns an EndOfInput token and changes nothing
else. -/
theorem nextToken_of_lastChar_none (s : LexState) (h : s.lastChar = none) :
    nextToken s = ({ s with currentToken := some Token.eof }, Except.ok (some Token.eof)) := by
  rw [nextToken, readWhile_of_lastChar_none pyIsSpace s h]
  simp [h]

/-- `opsValidList` distributes over appending one element. -/
theorem opsValidList_append (l : List Expr) (x : Expr) :
    opsValidList (l ++ [x]) = (opsValidList l && opsValid x) := by
  induction l with
  | nil => simp [opsValidList]
  | cons a rest ih => simp [opsValidList, ih, Bool.and_assoc]

/-- Every expression any parser entry point returns satisfies `opsValid`:
`BinaryOpExpr` nodes are built only in `_parse_bin_op_rhs` after the
current operator's precedence passed the nonnegative threshold, which
forces the operator to be a key of `binop_precedence`.  Proved for all six
expression-parsing functions simultaneously by induction on fuel. -/
theorem parseAll_opsValid (fuel : Nat) :
    (∀ s e s', parsePrimary fuel s = Except.ok (e, s') → opsValid e = true) ∧
    (∀ s e s', parseParenexpr fuel s = Except.ok (e, s') → opsValid e = true) ∧
    (∀ s e s', parseIdentifierExpr fuel s = Except.ok (e, s') → opsValid e = true) ∧
    (∀ idName acc s e s', opsValidList acc = true →
      parseCallArgs fuel idName acc s = Except.ok (e, s') → opsValid e = true) ∧
    (∀ lhs mp s e s', 0 ≤ mp → opsValid lhs = true →
      parseBinOpRhs fuel lhs mp s = Except.ok (e, s') → opsValid e = true) ∧
    (∀ s e s', parseExpr fuel s = Except.ok (e, s') → opsValid e = true) := by
  induction fuel with
  | zero =>
    refine ⟨?_, ?_, ?_, ?_, ?_, ?_⟩ <;> intros <;>
      simp_all [parsePrimary, parseParenexpr, parseIdentifierExpr, parseCallArgs,
        parseBinOpRhs, parseExpr]
  | succ n ih =>
    obtain ⟨ihP, ihParen, ihId, ihArgs, ihBin, ihExpr⟩ := ih
    refine ⟨?_, ?_, ?_, ?_, ?_, ?_⟩
    · -- parsePrimary
      intro s e s' h
      rw [parsePrimary] at h
      split at h
      · simp at h
      · simp only [Except.ok.injEq, Prod.mk.injEq] at h
        obtain ⟨h1, -⟩ := h
        subst h1
        rfl
      · exact ihId _ _ _ h
      · exact ihParen _ _ _ h
      · simp at h
    · -- parseParenexpr
      intro s e s' h
      rw [parseParenexpr] at h
      split at h
      · simp at h
      · rename_i e0 s2 heq
        split at h
        · simp at h
        · split at h
          · simp at h
          · simp only [Except.ok.injEq, Prod.mk.injEq] at h
            obtain ⟨h1, -⟩ := h
            subst h1
            exact ihExpr _ _ _ heq
    · -- parseIdentifierExpr
      intro s e s' h
      rw [parseIdentifierExpr] at h
      split at h
      · rename_i idName hcur
        dsimp only at h
        split at h
        · simp at h
        · split at h
          · simp only [Except.ok.injEq, Prod.mk.injEq] at h
            obtain ⟨h1, -⟩ := h
            subst h1
            rfl
          · split at h
            · simp at h
            · split at h
              · simp only [Except.ok.injEq, Prod.mk.injEq] at h
                obtain ⟨h1, -⟩ := h
                subst h1
                rfl
              · exact ihArgs _ [] _ _ _ rfl h
      · simp at h
    · -- parseCallArgs
      intro idName acc s e s' hacc h
      rw [parseCallArgs] at h
      split at h
      · simp at h
      · rename_i arg s1 heq
        have harg := ihExpr _ _ _ heq
        split at h
        · simp at h
        · split at h
          · simp only [Except.ok.injEq, Prod.mk.injEq] at h
            obtain ⟨h1, -⟩ := h
            subst h1
            simp [opsValid, opsValidList_append, hacc, harg]
          · split at h
            · simp at h
            · exact ihArgs _ _ _ _ _ (by simp [opsValidList_append, hacc, harg]) h
    · -- parseBinOpRhs
      intro lhs mp s e s' hmp hlhs h
      rw [parseBinOpRhs] at h
      split at h
      · simp at h
      · rename_i opPrec heqP
        split at h
        · simp only [Except.ok.injEq, Prod.mk.injEq] at h
          obtain ⟨h1, -⟩ := h
          subst h1
          exact hlhs
        · rename_i hge
          split at h
          · rename_i binOp hcur
            have hop : (binopPrecedence binOp).isSome = true := by
              simp only [curTokPrecedence, hcur] at heqP
              split at heqP
              · rename_i p hbp
                simp [hbp]
              · simp only [Except.ok.injEq] at heqP
                omega
            dsimp only at h
            split at h
            · simp at h
            · rename_i rhs s2 heq2
              have hrhs := ihP _ _ _ heq2
              split at h
              · simp at h
              · rename_i nextPrec heqP2
                split at h
                · split at h
                  · simp at h
                  · rename_i rhs2 s3 heq3
                    have hrhs2 := ihBin _ _ _ _ _ (by omega) hrhs heq3
                    exact ihBin _ _ _ _ _ hmp (by simp [opsValid, hop, hlhs, hrhs2]) h
                · exact ihBin _ _ _ _ _ hmp (by simp [opsValid, hop, hlhs, hrhs]) h
          · simp at h
    · -- parseExpr
      intro s e s' h
      rw [parseExpr] at h
      split at h
      · simp at h
      · rename_i lhs s1 heq
        exact ihBin _ _ _ _ _ (by norm_num) (ihP _ _ _ heq) h

/-- A value found in a clean lookup dict is not a `CodegenError` object. -/
theorem dictGet_clean (l : Lookup) (k : String) (v : GenVal)
    (hc : lookupClean l = true) (h : dictGet l k = some v) : v.isErrObj = false := by
  induction l with
  | nil => simp [dictGet] at h
  | cons p rest ih =>
    simp only [lookupClean, List.all_cons, Bool.and_eq_true] at hc
    obtain ⟨hp, hrest⟩ := hc
    rw [dictGet] at h
    split at h
    · rename_i v0 hrec
      injection h with h1
      subst h1
      exact ih hrest hrec
    · split at h
      · injection h with h1
        subst h1
        simp_all
      · simp at h

/-- The builder emitters hand back an instruction result, never a
`CodegenError` object. -/
theorem emitInstr_instr (mk : Nat → Instr) (st : GenState) (v : GenVal) (st' : GenState)
    (h : emitInstr mk st = Except.ok (v, st')) : v.isErrObj = false := by
  rw [emitInstr] at h
  split at h
  · simp at h
  · split at h
    · simp at h
    · split at h
      · simp at h
      · simp only [Except.ok.injEq, Prod.mk.injEq] at h
        obtain ⟨h1, -⟩ := h
        subst h1
        rfl

/-- Lowering an `opsValid` expression against a clean lookup dict never
returns a `CodegenError` object as its value: the invalid-binary-operator
branch of `generate` is unreachable. -/
theorem genExpr_no_errObj (e : Expr) (lookup : Lookup) (st : GenState) (v : GenVal)
    (st' : GenState) (hv : opsValid e = true) (hc : lookupClean lookup = true)
    (h : genExpr e lookup st = Except.ok (v, st')) : v.isErrObj = false := by
  cases e with
  | VariableExpr name =>
    rw [genExpr] at h
    split at h
    · rename_i v0 hget
      simp only [Except.ok.injEq, Prod.mk.injEq] at h
      obtain ⟨h1, -⟩ := h
      subst h1
      exact dictGet_clean _ _ _ hc hget
    · simp at h
  | NumebrExpr x =>
    rw [genExpr] at h
    simp only [Except.ok.injEq, Prod.mk.injEq] at h
    obtain ⟨h1, -⟩ := h
    subst h1
    rfl
  | BinaryOpExpr op l r =>
    rw [genExpr] at h
    split at h
    · simp at h
    · rename_i lv st1 heq1
      split at h
      · simp at h
      · rename_i rv st2 heq2
        simp only [opsValid, Bool.and_eq_true] at hv
        obtain ⟨⟨hop, -⟩, -⟩ := hv
        split_ifs at h with h1 h2 h3 h4
        · exact emitInstr_instr _ _ _ _ h
        · exact emitInstr_instr _ _ _ _ h
        · split at h
          · simp at h
          · exact emitInstr_instr _ _ _ _ h
        · exact emitInstr_instr _ _ _ _ h
        · exfalso
          simp [binopPrecedence, h1, h2, h3, h4] at hop
  | CallExpr callee args =>
    rw [genExpr] at h
    split at h
    · simp at h
    · split at h
      · simp at h
      · exact emitInstr_instr _ _ _ _ h

/-- A name outside the bound argument names is absent from the dict built
by the parameter-binding comprehension. -/
theorem argLookup_not_contains (l : List String) (fnIdx i : Nat) (x : String)
    (h : l.contains x = false) : dictGet (argLookup fnIdx i l) x = none := by
  induction l generalizing i with
  | nil => rfl
  | cons a rest ih =>
    simp only [List.contains_cons, Bool.or_eq_false_iff] at h
    obtain ⟨ha, hrest⟩ := h
    rw [argLookup, dictGet, ih _ hrest]
    simp only [beq_eq_false_iff_ne] at ha
    simp [Ne.symm ha]

/-! ## Claims -/

/-- Claim C1 (code evaluated at the failing input).  The claim — and the
parser's own docstrings, which give the grammar `id ( id* )` and the
example `def f(x y z)` — say prototype parameters are a bare run of
identifiers with no comma separators, so that `def f(x y)` parses.  The
code does the opposite: `_parse_prototype` raises
`ParseError(", expected, got ...")` when a parameter is followed by
anything other than `,` or `)`, so `def f(x y): x` fails with a
ParseError while the comma-separated `def f(x, y): x` parses to the
two-parameter prototype. -/
theorem claim_C1_prototype_comma :
    isParseErr (runParseDefinition "def f(x y): x") = true ∧
    runParseDefinition "def f(x, y): x" =
      Except.ok (Function.mk (Prototype.mk "f" ["x", "y"]) (Expr.VariableExpr "x")) :=
  ⟨rfl, rfl⟩

/-- Claim C2 (code evaluated at the failing input).  The claim says a Call
whose callee and arity match no known function fails with a raised
UnknownFunction error.  The code instead executes
`return CodegenError(...)` — returning, not raising — and evaluating the
message's `node.name` raises AttributeError first, because `CallExpr` has
no attribute `name`.  Lowering a call to the unknown `g` with zero
arguments therefore raises AttributeError, not the UnknownFunction
CodegenError, though indeed no call instruction is emitted. -/
theorem claim_C2_unknown_callee :
    generate (Node.expr (Expr.CallExpr "g" [])) [] initGen =
      Except.error (CodegenErr.attributeMissing "name") ∧
    searchFunctions initGen.functions "g" 0 = none :=
  ⟨rfl, rfl⟩

/-- Claim C3, confirmed: tokenizing the input starting with a comment
produces, call by call, no token (the comment call returns the unchanged
`current_token`, still `None`), then the Number token 3, then EndOfInput —
exactly one Number token with value 3 and no other token before EOF. -/
theorem claim_C3_comment_skip :
    streamOf "# comment\n3" =
      Except.ok [none, some (Token.number 3), some Token.eof] := by decide

/-- Claim C4, confirmed: an equal-precedence chain parses
left-associatively.  For every triple of identifier names, the token
sequence `a - b - c` parses to
`BinaryOp(-, BinaryOp(-, a, b), c)`, and the source string `a-b-c`
lexes and parses to exactly that tree. -/
theorem claim_C4_left_assoc :
    (∀ a b c : String,
      parseExpr 10 (nextTok (PState.mk [some (Token.identifier a), some (Token.op '-'),
          some (Token.identifier b), some (Token.op '-'), some (Token.identifier c),
          some Token.eof] none)) =
        Except.ok (Expr.BinaryOpExpr '-' (Expr.BinaryOpExpr '-' (Expr.VariableExpr a)
          (Expr.VariableExpr b)) (Expr.VariableExpr c),
          PState.mk [] (some Token.eof))) ∧
    runParseExpr "a-b-c" =
      Except.ok (Expr.BinaryOpExpr '-' (Expr.BinaryOpExpr '-' (Expr.VariableExpr "a")
        (Expr.VariableExpr "b")) (Expr.VariableExpr "c")) :=
  ⟨fun _ _ _ => rfl, rfl⟩

/-- Claim C5, confirmed: the precedence table maps `<` to 10, `+` to 20,
`-` to 30 and `*` to 40, and the higher-precedence `*` binds tighter than
`+` on both sides: `a+b*c` parses to `BinaryOp(+, a, BinaryOp(*, b, c))`
and `a*b+c` parses to `BinaryOp(+, BinaryOp(*, a, b), c)`. -/
theorem claim_C5_precedence :
    binopPrecedence '<' = some 10 ∧ binopPrecedence '+' = some 20 ∧
    binopPrecedence '-' = some 30 ∧ binopPrecedence '*' = some 40 ∧
    runParseExpr "a+b*c" =
      Except.ok (Expr.BinaryOpExpr '+' (Expr.VariableExpr "a")
        (Expr.BinaryOpExpr '*' (Expr.VariableExpr "b") (Expr.VariableExpr "c"))) ∧
    runParseExpr "a*b+c" =
      Except.ok (Expr.BinaryOpExpr '+' (Expr.BinaryOpExpr '*' (Expr.VariableExpr "a")
        (Expr.VariableExpr "b")) (Expr.VariableExpr "c")) :=
  ⟨rfl, rfl, rfl, rfl, rfl, rfl⟩

/-- Claim C6, confirmed: lowering a `Function` whose name and arity
resolve to a module function that already has at least one basic block
fails with the redefinition `CodegenError`, and nothing is emitted. -/
theorem claim_C6_redefinition (st : GenState) (lookup : Lookup) (f : Function) (fi : Nat)
    (fn : IRFunc)
    (h1 : searchFunctions st.functions f.proto.name f.proto.args.length = some fi)
    (h2 : st.functions.get? fi = some fn)
    (h3 : 0 < fn.blocks.length) :
    genFunc f lookup st = Except.error (CodegenErr.redefinition f.proto) := by
  rw [genFunc, h1]
  simp only [h2]
  simp [h3]

/-- Witness for claim C6: `def foo(x): x+1` parses to the expected
`Function`; lowering it once on a fresh module succeeds (emitting an fadd
and a ret in the entry block), and lowering the identical definition a
second time fails with the redefinition error, by `claim_C6_redefinition`
applied to the state the first lowering produced. -/
theorem claim_C6_witness :
    runParseDefinition "def foo(x): x+1" =
      Except.ok (Function.mk (Prototype.mk "foo" ["x"])
        (Expr.BinaryOpExpr '+' (Expr.VariableExpr "x") (Expr.NumebrExpr 1))) ∧
    genFunc (Function.mk (Prototype.mk "foo" ["x"])
        (Expr.BinaryOpExpr '+' (Expr.VariableExpr "x") (Expr.NumebrExpr 1))) [] initGen =
      Except.ok (0, GenState.mk [IRFunc.mk "foo" ["x"]
        [[Instr.fadd (GenVal.argv 0 0) (GenVal.const 1) 0, Instr.ret (GenVal.instr 0)]]]
        (some (0, 0)) 1) ∧
    genFunc (Function.mk (Prototype.mk "foo" ["x"])
        (Expr.BinaryOpExpr '+' (Expr.VariableExpr "x") (Expr.NumebrExpr 1))) []
      (GenState.mk [IRFunc.mk "foo" ["x"]
        [[Instr.fadd (GenVal.argv 0 0) (GenVal.const 1) 0, Instr.ret (GenVal.instr 0)]]]
        (some (0, 0)) 1) =
      Except.error (CodegenErr.redefinition (Prototype.mk "foo" ["x"])) :=
  ⟨rfl, rfl,
    claim_C6_redefinition (GenState.mk [IRFunc.mk "foo" ["x"]
        [[Instr.fadd (GenVal.argv 0 0) (GenVal.const 1) 0, Instr.ret (GenVal.instr 0)]]]
        (some (0, 0)) 1) []
      (Function.mk (Prototype.mk "foo" ["x"])
        (Expr.BinaryOpExpr '+' (Expr.VariableExpr "x") (Expr.NumebrExpr 1)))
      0 (IRFunc.mk "foo" ["x"]
        [[Instr.fadd (GenVal.argv 0 0) (GenVal.const 1) 0, Instr.ret (GenVal.instr 0)]])
      rfl rfl (by decide)⟩

/-- Claim C7, confirmed: lowering a `VariableExpr` whose name is absent
from the lookup dict fails with the undefined-variable `CodegenError`;
when the name is present, lowering returns the mapped IR value and leaves
the module untouched. -/
theorem claim_C7_variable_lookup (name : String) (lookup : Lookup) (st : GenState) :
    (dictGet lookup name = none →
      genExpr (Expr.VariableExpr name) lookup st =
        Except.error (CodegenErr.undefinedVariable name)) ∧
    (∀ v, dictGet lookup name = some v →
      genExpr (Expr.VariableExpr name) lookup st = Except.ok (v, st)) := by
  constructor
  · intro h
    rw [genExpr, h]
  · intro v h
    rw [genExpr, h]

/-- Witness for claim C7: `y` is undefined in an empty scope; `x` bound to
the constant 5 lowers to that constant. -/
theorem claim_C7_witness :
    genExpr (Expr.VariableExpr "y") [] initGen =
      Except.error (CodegenErr.undefinedVariable "y") ∧
    genExpr (Expr.VariableExpr "x") [("x", GenVal.const 5)] initGen =
      Except.ok (GenVal.const 5, initGen) :=
  ⟨(claim_C7_variable_lookup "y" [] initGen).1 rfl,
   (claim_C7_variable_lookup "x" [("x", GenVal.const 5)] initGen).2 (GenVal.const 5) rfl⟩

/-- Claim C8, confirmed: every expression the parser produces (from any
fuel and any token stream) has all its binary operators among the four
keys of the precedence table, and lowering such an expression against a
clean scope never returns the invalid-binary-operator `CodegenError`
object — that branch is unreachable for parser-produced trees. -/
theorem claim_C8_parser_ops :
    (∀ fuel s e s', parseExpr fuel s = Except.ok (e, s') → opsValid e = true) ∧
    (∀ e lookup st v st', opsValid e = true → lookupClean lookup = true →
      genExpr e lookup st = Except.ok (v, st') → v.isErrObj = false) :=
  ⟨fun fuel s e s' h => (parseAll_opsValid fuel).2.2.2.2.2 s e s' h,
   fun e lookup st v st' hv hc h => genExpr_no_errObj e lookup st v st' hv hc h⟩

/-- Witness for claim C8: the tree parsed from `a - b - c` is `opsValid`,
and lowering `1 + 2` inside a positioned entry block yields an
instruction result, not an error object. -/
theorem claim_C8_witness :
    opsValid (Expr.BinaryOpExpr '-' (Expr.BinaryOpExpr '-' (Expr.VariableExpr "a")
      (Expr.VariableExpr "b")) (Expr.VariableExpr "c")) = true ∧
    GenVal.isErrObj (GenVal.instr 0) = false :=
  ⟨claim_C8_parser_ops.1 10 (PState.mk [some (Token.op '-'), some (Token.identifier "b"),
      some (Token.op '-'), some (Token.identifier "c"), some Token.eof]
      (some (Token.identifier "a"))) _ _ rfl,
   claim_C8_parser_ops.2 (Expr.BinaryOpExpr '+' (Expr.NumebrExpr 1) (Expr.NumebrExpr 2)) []
     (GenState.mk [IRFunc.mk "f" [] [[]]] (some (0, 0)) 0) (GenVal.instr 0) _ rfl rfl rfl⟩

/-- Counterexample to claim C9 as stated: the very first `next_token` call
on the input `#` consumes the comment and returns `None` — the Python
method returns `self.current_token`, which the comment branch never set —
so a call can return no token at all, refuting "each call returns exactly
one token". -/
theorem claim_C9_counterexample :
    (nextToken (initLexer "#")).2 = Except.ok none := rfl

/-- Claim C9 as amended: once `next_token` has newly returned an
EndOfInput token, the lexer state is a fixpoint — `last_char` is the empty
string, `current_token` is EndOfInput, and every subsequent call returns
EndOfInput with the state unchanged.  (The comment branch instead returns
at most the stale previous token, which is what the counterexample
exhibits.) -/
theorem claim_C9_eof_absorb (s s' : LexState)
    (h : nextToken s = (s', Except.ok (some Token.eof)))
    (hne : s.currentToken ≠ some Token.eof) :
    s'.currentToken = some Token.eof ∧ s'.lastChar = none ∧
      nextToken s' = (s', Except.ok (some Token.eof)) := by
  rw [nextToken] at h
  rcases h0 : ((readWhile pyIsSpace s).2).lastChar with _ | c
  · -- EOF branch: the resulting state is a fixpoint of nextToken
    rw [h0] at h
    simp only at h
    rw [Prod.mk.injEq] at h
    obtain ⟨h1, -⟩ := h
    subst h1
    exact ⟨rfl, rfl, nextToken_of_lastChar_none _ rfl⟩
  · -- a pending character: every branch produces a non-EOF token or
    -- returns the stale current token, contradicting the hypotheses
    rw [h0] at h
    simp only at h
    split at h
    · -- alpha branch
      rw [Prod.mk.injEq] at h
      obtain ⟨-, h2⟩ := h
      split at h2 <;> try split at h2
      all_goals simp_all
    · split at h
      · -- number branch
        split at h
        · split at h
          · rw [Prod.mk.injEq] at h; obtain ⟨-, h2⟩ := h; simp_all
          · rw [Prod.mk.injEq] at h; obtain ⟨-, h2⟩ := h; simp_all
        · split at h
          · rw [Prod.mk.injEq] at h; obtain ⟨-, h2⟩ := h; simp_all
          · rw [Prod.mk.injEq] at h; obtain ⟨-, h2⟩ := h; simp_all
      · split at h
        · -- comment branch: the returned token is the unchanged current token
          rw [Prod.mk.injEq] at h
          obtain ⟨-, h2⟩ := h
          rw [read1_currentToken, readWhile_currentToken, readWhile_currentToken] at h2
          simp only [Except.ok.injEq] at h2
          exact absurd h2 hne
        · -- operator branch
          rw [Prod.mk.injEq] at h
          obtain ⟨-, h2⟩ := h
          simp_all

/-- Witness for claim C9: on empty input the first call produces
EndOfInput, and `claim_C9_eof_absorb` shows the next call returns
EndOfInput again from the unchanged state. -/
theorem claim_C9_witness :
    nextToken (initLexer "") =
      (LexState.mk [] none (some Token.eof), Except.ok (some Token.eof)) ∧
    nextToken (LexState.mk [] none (some Token.eof)) =
      (LexState.mk [] none (some Token.eof), Except.ok (some Token.eof)) :=
  ⟨rfl, (claim_C9_eof_absorb (initLexer "") (LexState.mk [] none (some Token.eof))
    rfl (by decide)).2.2⟩

/-- Claim C10, confirmed: when a `Function` resolves (by name and arity)
to an already-declared module function with no body yet, that function is
reused without touching its parameter names: the body scope binds the
PREVIOUSLY declared names, so a body consisting of a variable reference
outside those names — e.g. the new definition's own parameter name when
the two lists differ — fails with the undefined-variable error. -/
theorem claim_C10_param_reuse (st : GenState) (f : Function) (fi : Nat) (fn : IRFunc)
    (x : String)
    (h1 : searchFunctions st.functions f.proto.name f.proto.args.length = some fi)
    (h2 : st.functions.get? fi = some fn)
    (h3 : fn.blocks = [])
    (h4 : f.body = Expr.VariableExpr x)
    (h5 : fn.args.contains x = false) :
    genFunc f [] st = Except.error (CodegenErr.undefinedVariable x) := by
  rw [genFunc, h1]
  simp only [h2, h3]
  simp only [List.length_nil, lt_irrefl, if_false]
  rw [h4, genExpr]
  rw [List.nil_append, argLookup_not_contains _ _ _ _ h5]

/-- Witness for claim C10: declare `extern foo(a)` (lowering the bare
prototype), then lower `def foo(x): x` — the scope binds `a`, not `x`, so
the body fails with undefined variable `x`. -/
theorem claim_C10_witness :
    genProto (Prototype.mk "foo" ["a"]) initGen =
      (0, GenState.mk [IRFunc.mk "foo" ["a"] []] none 0) ∧
    genFunc (Function.mk (Prototype.mk "foo" ["x"]) (Expr.VariableExpr "x")) []
      (GenState.mk [IRFunc.mk "foo" ["a"] []] none 0) =
      Except.error (CodegenErr.undefinedVariable "x") :=
  ⟨rfl,
   claim_C10_param_reuse (GenState.mk [IRFunc.mk "foo" ["a"] []] none 0)
     (Function.mk (Prototype.mk "foo" ["x"]) (Expr.VariableExpr "x"))
     0 (IRFunc.mk "foo" ["a"] []) "x" rfl rfl rfl rfl (by decide)⟩

end Kaleidoscope
